import Mathlib

/-!
Verification of the Provider Cache Gateway of `backend/APICalls.py`:
the cache-first orchestrator (`getCachedOrFetch` / `_get_cached`), the
network executor (`safeRequest`), the daily usage ledger
(`get_usage` / `add_usage` / `under_budget`), the per-provider token
bucket (`SimpleRateLimiter`), and the per-category normalizers.

Times and durations are rationals (seconds).  JSON payloads are modelled
by the inductive type `J`; Python truthiness (`or`, `.get`, `if x:`) is
modelled explicitly (`pyOr`, `pyGet`, `jTruthy`).  Storage reads that may
raise are modelled with `Except String`.
-/

/-- JSON-like values: the payloads flowing through the gateway. -/
inductive J where
  | null : J
  | boolv (b : Bool) : J
  | str (s : String) : J
  | num (n : Int) : J
  | arr (xs : List J) : J
  | obj (kvs : List (String × J)) : J

/-- Python truthiness of a JSON value (`if x:`). -/
def jTruthy (j : J) : Bool :=
  match j with
  | J.null => false
  | J.boolv b => b
  | J.str s => !(s.isEmpty)
  | J.num n => n != 0
  | J.arr xs => !(xs.isEmpty)
  | J.obj kvs => !(kvs.isEmpty)

/-- Python `d.get(k)`: `None` (here `J.null`) when the key is absent or the
value is not a dict. -/
def pyGet (j : J) (k : String) : J :=
  match j with
  | J.obj kvs => (kvs.lookup k).getD J.null
  | _ => J.null

/-- Python `d.get(k, default)`. -/
def pyGetD (j : J) (k : String) (dflt : J) : J :=
  match j with
  | J.obj kvs => (kvs.lookup k).getD dflt
  | _ => dflt

/-- Python `a or b`. -/
def pyOr (a b : J) : J :=
  if jTruthy a then a else b

/-- Python `xs[n]` on a list, `J.null` out of range (all uses are guarded). -/
def jIdx (j : J) (n : Nat) : J :=
  match j with
  | J.arr xs => xs.getD n J.null
  | _ => J.null

/-- Python `len(xs)` for a list value, 0 otherwise. -/
def jLen (j : J) : Nat :=
  match j with
  | J.arr xs => xs.length
  | _ => 0

/-- Python `s.strip()` on a string value. -/
def jStrip (j : J) : J :=
  match j with
  | J.str s => J.str s.trim
  | _ => j

/-- `isinstance(raw, dict) and raw.get("error")` — the error-result test
used by `getCachedOrFetch` on the value returned by `fetchFn`. -/
def isErr (raw : J) : Bool :=
  match raw with
  | J.obj _ => jTruthy (pyGet raw "error")
  | _ => false

/-- Cache categories (`self.category` of the provider clients). -/
inductive Category where
  | weather : Category
  | flight : Category
  | geo : Category
deriving DecidableEq

/-- The five concrete `ProviderClient` subclasses of `APICalls.py`. -/
inductive Client where
  | openWeatherMap : Client
  | aviationWeather : Client
  | aviationStack : Client
  | openSky : Client
  | openStreetMap : Client
deriving DecidableEq

/-- `providerName` class attribute. -/
def providerName (c : Client) : String :=
  match c with
  | Client.openWeatherMap => "openweathermap"
  | Client.aviationWeather => "aviationweather"
  | Client.aviationStack => "aviationstack"
  | Client.openSky => "opensky"
  | Client.openStreetMap => "openstreetmap"

/-- `category` class attribute. -/
def category (c : Client) : Category :=
  match c with
  | Client.openWeatherMap => Category.weather
  | Client.aviationWeather => Category.weather
  | Client.aviationStack => Category.flight
  | Client.openSky => Category.flight
  | Client.openStreetMap => Category.geo

/-- A row of the `AirportWeather` table (the fields `_get_cached` reads;
`lastUpdated` is `auto_now`, `none` models a NULL timestamp). -/
structure WeatherRow where
  conditionsJson : J
  lastUpdated : Option ℚ

/-- A row of the `MapsGeo` table. -/
structure GeoRow where
  resultJson : J
  lastUpdated : Option ℚ

/-- A row of the `Flight` table. -/
structure FlightRow where
  flightNumber : J
  airline : J
  depIata : J
  arrIata : J
  status : J
  depTime : J
  arrTime : J
  rawJson : J
  lastUpdated : Option ℚ

/-- The cache store: one optional row per `(key, providerSource)` pair in
each of the three category tables. -/
structure Db where
  weatherRows : String → String → Option WeatherRow
  flightRows : String → String → Option FlightRow
  geoRows : String → String → Option GeoRow

/-- The value returned to callers (`ProviderResponse` dataclass). -/
structure ProviderResponse where
  data : J
  provider : String
  cache : String

/-- `recency` inside `_get_cached`:
`(now - dt).total_seconds() if dt else 10**9`. -/
def recency (now : ℚ) (dt : Option ℚ) : ℚ :=
  match dt with
  | some t => now - t
  | none => 10 ^ 9

/-- The serve-stale windows `MAX_STALE` (env defaults). -/
def MAX_STALE : Category → ℚ
  | Category.weather => 6 * 3600
  | Category.flight => 10 * 60
  | Category.geo => 7 * 86400

/-- The daily budgets `DAILY_BUDGETS` (env defaults); `none` models a
provider with no configured budget. -/
def DAILY_BUDGETS : String → Option ℤ :=
  fun p =>
    if p = "openweathermap" then some 900
    else if p = "aviationweather" then some 2000
    else if p = "aviationstack" then some 1000
    else if p = "opensky" then some 380
    else none

/-- The usage-ledger storage for today's UTC day: per provider either the
stored counter row (`some count`), no row (`none`), or a raised storage
error (`Except.error`), modelling `ApiUsage.objects.filter(...).first()`. -/
structure LedgerStore where
  read : String → Except String (Option ℤ)

/-- `get_usage`: today's count for the provider, `0` if no row exists.
A storage failure propagates (the source has no try/except here). -/
def get_usage (st : LedgerStore) (provider : String) : Except String ℤ :=
  match st.read provider with
  | Except.error e => Except.error e
  | Except.ok row =>
    match row with
    | some cnt => Except.ok cnt
    | none => Except.ok 0

/-- `under_budget`: `if not budget: return True` — Python truthiness, so a
missing budget *and* a configured budget of `0` both short-circuit to
`True`; otherwise `get_usage(provider) < budget` (a storage failure inside
`get_usage` propagates to the caller). -/
def under_budget (budgets : String → Option ℤ) (st : LedgerStore)
    (provider : String) : Except String Bool :=
  match budgets provider with
  | none => Except.ok true
  | some b =>
    if b = 0 then Except.ok true
    else
      match get_usage st provider with
      | Except.error e => Except.error e
      | Except.ok u => Except.ok (decide (u < b))

/-- The formula of the spec sentence for `underBudget` (for comparison
with the source behaviour): true iff no budget is configured for the
provider or the usage count is strictly below the configured budget. -/
def underBudgetSpecFormula (budgets : String → Option ℤ) (usage : ℤ)
    (provider : String) : Bool :=
  match budgets provider with
  | none => true
  | some b => decide (usage < b)

/-- `ProviderClient._get_cached`: category-dispatched cache lookup.
Fresh rows (`age < ttl`) are returned as `hit`; aged rows within
`maxStale[category]` as `stale` when `allow_stale` is set. -/
def get_cached (c : Client) (maxStale : Category → ℚ) (db : Db) (now : ℚ)
    (key : String) (ttl : ℚ) (allow_stale : Bool) : Option ProviderResponse :=
  match category c with
  | Category.geo =>
    match db.geoRows key (providerName c) with
    | none => none
    | some row =>
      let age := recency now row.lastUpdated
      let payload := J.obj [("result", pyOr row.resultJson (J.obj []))]
      if age < ttl then some (ProviderResponse.mk payload (providerName c) "hit")
      else if allow_stale ∧ age < maxStale Category.geo then
        some (ProviderResponse.mk payload (providerName c) "stale")
      else none
  | Category.weather =>
    match db.weatherRows key (providerName c) with
    | none => none
    | some row =>
      let age := recency now row.lastUpdated
      let payload := J.obj [("weather", pyOr row.conditionsJson (J.obj []))]
      if age < ttl then some (ProviderResponse.mk payload (providerName c) "hit")
      else if allow_stale ∧ age < maxStale Category.weather then
        some (ProviderResponse.mk payload (providerName c) "stale")
      else none
  | Category.flight =>
    match db.flightRows key (providerName c) with
    | none => none
    | some row =>
      let age := recency now row.lastUpdated
      let norm := J.obj [("flightNumber", row.flightNumber),
        ("airline", row.airline), ("depIata", row.depIata),
        ("arrIata", row.arrIata), ("status", row.status),
        ("depTime", row.depTime), ("arrTime", row.arrTime),
        ("raw", pyOr row.rawJson (J.obj []))]
      if age < ttl then some (ProviderResponse.mk norm (providerName c) "hit")
      else if allow_stale ∧ age < maxStale Category.flight then
        some (ProviderResponse.mk norm (providerName c) "stale")
      else none

/-- `data = raw.get("data") or []; first = data[0] if data else {}`
(AviationStackClient). -/
def astackFirst (raw : J) : J :=
  let data := pyOr (pyGet raw "data") (J.arr [])
  if jTruthy data then jIdx data 0 else J.obj []

/-- `(first.get(outer, {}) or {}).get(inner)` (AviationStackClient). -/
def astackField (first : J) (outer inner : String) : J :=
  pyGet (pyOr (pyGetD first outer (J.obj [])) (J.obj [])) inner

/-- `states = raw.get("states") or []; first = states[0] if states else []`
(OpenSkyClient). -/
def openSkyFirst (raw : J) : J :=
  let states := pyOr (pyGet raw "states") (J.arr [])
  if jTruthy states then jIdx states 0 else J.arr []

/-- `first[1].strip() if len(first) > 1 and first[1] else None`
(OpenSkyClient). -/
def openSkyFlightNumber (raw : J) : J :=
  let first := openSkyFirst raw
  if 1 < jLen first ∧ jTruthy (jIdx first 1) then jStrip (jIdx first 1)
  else J.null

/-- `"airborne" if states else None` (OpenSkyClient). -/
def openSkyStatus (raw : J) : J :=
  if jTruthy (pyOr (pyGet raw "states") (J.arr [])) then J.str "airborne"
  else J.null

/-- `_normalizeForReturn`: the base `ProviderClient` version wraps the raw
payload per category; `AviationStackClient` and `OpenSkyClient` override
it with flight-record extraction that keeps the raw payload under
`"raw"`. -/
def normalizeForReturn (c : Client) (raw : J) : J :=
  match c with
  | Client.aviationStack =>
    let first := astackFirst raw
    J.obj [("flightNumber", astackField first "flight" "iata"),
      ("airline", astackField first "airline" "name"),
      ("depIata", astackField first "departure" "iata"),
      ("arrIata", astackField first "arrival" "iata"),
      ("status", pyGet first "flight_status"),
      ("depTime", astackField first "departure" "scheduled"),
      ("arrTime", astackField first "arrival" "scheduled"),
      ("raw", raw)]
  | Client.openSky =>
    J.obj [("flightNumber", openSkyFlightNumber raw),
      ("airline", J.null), ("depIata", J.null), ("arrIata", J.null),
      ("status", openSkyStatus raw),
      ("depTime", J.null), ("arrTime", J.null),
      ("raw", raw)]
  | _ =>
    match category c with
    | Category.weather => J.obj [("weather", pyOr raw (J.obj []))]
    | Category.geo => J.obj [("result", pyOr raw (J.obj []))]
    | Category.flight => raw

/-- `_upsert`: write-back of a successful fetch, keyed on
`(key, providerSource)`; `lastUpdated` is `auto_now`, hence `now`. -/
def upsertDb (c : Client) (db : Db) (key : String) (raw : J) (now : ℚ) : Db :=
  match c with
  | Client.openWeatherMap | Client.aviationWeather =>
    Db.mk
      (fun k p =>
        if k = key ∧ p = providerName c then some (WeatherRow.mk raw (some now))
        else db.weatherRows k p)
      db.flightRows db.geoRows
  | Client.openStreetMap =>
    Db.mk db.weatherRows db.flightRows
      (fun k p =>
        if k = key ∧ p = providerName c then some (GeoRow.mk raw (some now))
        else db.geoRows k p)
  | Client.aviationStack =>
    let first := astackFirst raw
    Db.mk db.weatherRows
      (fun k p =>
        if k = key ∧ p = providerName c then
          some (FlightRow.mk (astackField first "flight" "iata")
            (astackField first "airline" "name")
            (astackField first "departure" "iata")
            (astackField first "arrival" "iata")
            (pyGet first "flight_status")
            (astackField first "departure" "scheduled")
            (astackField first "arrival" "scheduled")
            raw (some now))
        else db.flightRows k p)
      db.geoRows
  | Client.openSky =>
    Db.mk db.weatherRows
      (fun k p =>
        if k = key ∧ p = providerName c then
          some (FlightRow.mk (openSkyFlightNumber raw) J.null J.null J.null
            (openSkyStatus raw) J.null J.null raw (some now))
        else db.flightRows k p)
      db.geoRows

/-- The outcome of one `getCachedOrFetch` call: the response, the cache
store afterwards, how many times `fetchFn` was invoked, and the time at
which the call returns. -/
structure FetchOut where
  resp : ProviderResponse
  db : Db
  fetchCalls : Nat
  endTime : ℚ

/-- `ProviderClient.getCachedOrFetch`: fresh-cache lookup; budget check
(`allow_stale = not under_budget`, a ledger-read failure propagates);
stale serve when over budget; otherwise one `fetchFn` invocation (modelled
by its result `fetchRes` and duration `fetchDur`), with stale fallback on
an error result, and attempted upsert + `miss` response on a successful
one.  The source wraps `self._upsert` in a try/except that logs and
swallows a raised write-back; `_upsert` runs in `transaction.atomic`, so
a failure leaves the store unchanged: `upsertOk` is the outcome of that
attempted write (false = the write-back raised and was swallowed). -/
def getCachedOrFetch (c : Client) (maxStale : Category → ℚ)
    (budgets : String → Option ℤ) (st : LedgerStore) (db : Db) (now : ℚ)
    (cacheKey : String) (ttlSeconds : ℚ) (fetchRes : J) (fetchDur : ℚ)
    (upsertOk : Bool) :
    Except String FetchOut :=
  match get_cached c maxStale db now cacheKey ttlSeconds false with
  | some cached => Except.ok (FetchOut.mk cached db 0 now)
  | none =>
    match under_budget budgets st (providerName c) with
    | Except.error e => Except.error e
    | Except.ok ub =>
      let allow_stale := !ub
      match (if allow_stale then
          get_cached c maxStale db now cacheKey ttlSeconds true else none) with
      | some stale => Except.ok (FetchOut.mk stale db 0 now)
      | none =>
        let raw := fetchRes
        let now2 := now + fetchDur
        if isErr raw then
          match get_cached c maxStale db now2 cacheKey ttlSeconds true with
          | some stale => Except.ok (FetchOut.mk stale db 1 now2)
          | none =>
            Except.ok (FetchOut.mk
              (ProviderResponse.mk (normalizeForReturn c raw) (providerName c) "miss")
              db 1 now2)
        else
          Except.ok (FetchOut.mk
            (ProviderResponse.mk (normalizeForReturn c raw) (providerName c) "miss")
            (if upsertOk then upsertDb c db cacheKey raw now2 else db) 1 now2)

/-- Two sequential `getCachedOrFetch` calls for the same key: the second
starts at `t2`, with the cache store left by the first; `u1`, `u2` are
the outcomes of each call's attempted cache write-back. -/
def twoCalls (c : Client) (maxStale : Category → ℚ)
    (budgets : String → Option ℤ) (st : LedgerStore) (db : Db) (t1 t2 : ℚ)
    (key : String) (ttl : ℚ) (r1 : J) (d1 : ℚ) (u1 : Bool) (r2 : J)
    (d2 : ℚ) (u2 : Bool) :
    Except String (FetchOut × FetchOut) :=
  match getCachedOrFetch c maxStale budgets st db t1 key ttl r1 d1 u1 with
  | Except.error e => Except.error e
  | Except.ok o1 =>
    match getCachedOrFetch c maxStale budgets st o1.db t2 key ttl r2 d2 u2 with
    | Except.error e => Except.error e
    | Except.ok o2 => Except.ok (o1, o2)

/-- Age of the cache row for `(category, key, providerSource)` at `now`,
if such a row exists (helper for stating the stale-serve claims). -/
def cacheRowAge (c : Client) (db : Db) (now : ℚ) (key : String) : Option ℚ :=
  match category c with
  | Category.weather =>
    (db.weatherRows key (providerName c)).map (fun row => recency now row.lastUpdated)
  | Category.flight =>
    (db.flightRows key (providerName c)).map (fun row => recency now row.lastUpdated)
  | Category.geo =>
    (db.geoRows key (providerName c)).map (fun row => recency now row.lastUpdated)

/-- The raw fetch result is embedded, as a whole, in a normalized payload
(at top level or under `"weather"` / `"result"` / `"raw"`): the shape in
which a fetch error reaches the caller of `getCachedOrFetch`. -/
def embedsRaw (payload raw : J) : Prop :=
  payload = raw ∨ pyGet payload "weather" = raw ∨
    pyGet payload "result" = raw ∨ pyGet payload "raw" = raw

/-- What one HTTP attempt inside `safeRequest` does: raise a timeout,
raise a connection error, or produce a response with a status code and a
parsed body. -/
inductive AttemptOutcome where
  | timeout (msg : String) : AttemptOutcome
  | connError (msg : String) : AttemptOutcome
  | status (code : Nat) (body : J) : AttemptOutcome

/-- Side effects of one `safeRequest` execution: rate-limiter tokens
acquired, HTTP requests issued, and `add_usage(provider, 1)` invocations. -/
structure Trace where
  acquires : Nat
  httpCalls : Nat
  addUsageCalls : Nat
deriving DecidableEq

/-- The retry loop of `safeRequest` (`for _ in range(maxRetries)`), over
an oracle giving the outcome of the `i`-th attempt.  Each attempt first
acquires a limiter token, then issues the request; 429/5xx and transport
failures back off and retry; other 4xx aborts via `raise_for_status`
(caught by the generic handler, which breaks and returns the error);
otherwise `add_usage` is invoked (best-effort) and the body returned. -/
def safeRequestLoop (provider : String) (outcomes : Nat → AttemptOutcome) :
    Nat → Nat → ℚ → Option String → Trace → J × Trace
  | 0, _, _, lastError, tr =>
    (J.obj [("error", J.str (lastError.getD "unknown_error"))], tr)
  | fuel + 1, i, backoff, _, tr =>
    let tr2 := Trace.mk (tr.acquires + 1) (tr.httpCalls + 1) tr.addUsageCalls
    match outcomes i with
    | AttemptOutcome.timeout m =>
      safeRequestLoop provider outcomes fuel (i + 1) (min (backoff * 2) 16) (some m) tr2
    | AttemptOutcome.connError m =>
      safeRequestLoop provider outcomes fuel (i + 1) (min (backoff * 2) 16) (some m) tr2
    | AttemptOutcome.status code body =>
      if code = 429 ∨ (500 ≤ code ∧ code < 600) then
        safeRequestLoop provider outcomes fuel (i + 1) (min (backoff * 2) 16)
          (some (provider ++ " HTTP " ++ toString code)) tr2
      else if 400 ≤ code then
        (J.obj [("error", J.str ("HTTP " ++ toString code))], tr2)
      else
        (body, Trace.mk tr2.acquires tr2.httpCalls (tr2.addUsageCalls + 1))

/-- `ProviderClient.safeRequest`: the budget gate (a ledger-read failure
inside `under_budget` propagates; an exhausted budget returns the
`budget_exhausted` error with no attempt), then the retry loop with
`backoff = 1.0`. -/
def safeRequest (budgets : String → Option ℤ) (st : LedgerStore)
    (provider : String) (outcomes : Nat → AttemptOutcome) (maxRetries : Nat) :
    Except String (J × Trace) :=
  match under_budget budgets st provider with
  | Except.error e => Except.error e
  | Except.ok ub =>
    if ub then Except.ok (safeRequestLoop provider outcomes maxRetries 0 1 none (Trace.mk 0 0 0))
    else Except.ok (J.obj [("error", J.str "budget_exhausted")], Trace.mk 0 0 0)

/-- Is the `i`-th attempt outcome a 2xx response? -/
def attempt2xx (o : AttemptOutcome) : Bool :=
  match o with
  | AttemptOutcome.status code _ => decide (200 ≤ code ∧ code < 300)
  | _ => false

/-- Number of 2xx outcomes among attempts `i, i+1, ..., i+n-1`. -/
def count2xx (outcomes : Nat → AttemptOutcome) (i n : Nat) : Nat :=
  (List.range n).countP (fun j => attempt2xx (outcomes (i + j)))

/-- The attempt outcomes named by the spec's taxonomy: transport failures,
2xx, 429, other 4xx, 5xx. -/
def claimOutcome (o : AttemptOutcome) : Prop :=
  match o with
  | AttemptOutcome.timeout _ => True
  | AttemptOutcome.connError _ => True
  | AttemptOutcome.status code _ =>
    (200 ≤ code ∧ code < 300) ∨ code = 429 ∨ (400 ≤ code ∧ code < 500) ∨
      (500 ≤ code ∧ code < 600)

/-- `SimpleRateLimiter` state: a token bucket.  `last` is the value of
`time.monotonic()` stored at the last `acquire`. -/
structure SimpleRateLimiter where
  rate : ℚ
  capacity : ℚ
  tokens : ℚ
  last : ℚ
deriving DecidableEq

/-- The constructor: a full bucket, `last = time.monotonic()` at creation. -/
def SimpleRateLimiter.init (rate_per_sec capacity now : ℚ) : SimpleRateLimiter :=
  SimpleRateLimiter.mk rate_per_sec capacity capacity now

/-- `SimpleRateLimiter.acquire`, called at wall-clock instant `now` with
token cost `cost`: refill from elapsed time (capped at capacity), then
either deduct immediately (second component 0 = no sleep) or sleep for the
deficit and zero the bucket.  Note `last` is set to `now` *before* the
sleep, so the sleep interval is counted again as refill time by the next
call. -/
def SimpleRateLimiter.acquire (s : SimpleRateLimiter) (now cost : ℚ) :
    SimpleRateLimiter × ℚ :=
  let elapsed := now - s.last
  let tokens2 := min s.capacity (s.tokens + elapsed * s.rate)
  if cost ≤ tokens2 then
    (SimpleRateLimiter.mk s.rate s.capacity (tokens2 - cost) now, 0)
  else
    let sleep_time := (cost - tokens2) / s.rate
    (SimpleRateLimiter.mk s.rate s.capacity 0 now, max 0 sleep_time)

/-- A sequence of sequential `acquire()` calls (cost 1 each): the list
holds the wall-clock gap between the return of one call and the start of
the next; `t` is the current instant; the result is the final limiter
state and the instant at which the last call returns (`time.sleep`
advances the clock by the returned sleep amount). -/
def runAcquires (s : SimpleRateLimiter) (t : ℚ) : List ℚ → SimpleRateLimiter × ℚ
  | [] => (s, t)
  | g :: gs =>
    let w := t + g
    let res := s.acquire w 1
    runAcquires res.1 (w + res.2) gs

/-- The token-bucket invariant of the spec's data model. -/
def RLInv (s : SimpleRateLimiter) : Prop :=
  0 ≤ s.tokens ∧ s.tokens ≤ s.capacity

/-- The empty cache store. -/
def emptyDb : Db :=
  Db.mk (fun _ _ => none) (fun _ _ => none) (fun _ _ => none)

/-- A usage-ledger store whose every read raises. -/
def failingLedger (e : String) : LedgerStore :=
  LedgerStore.mk (fun _ => Except.error e)

/-- A usage-ledger store whose every read succeeds with the given row. -/
def okLedger (row : Option ℤ) : LedgerStore :=
  LedgerStore.mk (fun _ => Except.ok row)

/-- A cache store holding exactly one weather row: key KDEN from
aviationweather, written at instant 0. -/
def dbKDEN : Db :=
  Db.mk
    (fun k p =>
      if k = "KDEN" ∧ p = "aviationweather" then
        some (WeatherRow.mk (J.obj [("metar", J.str "KDEN 010000Z 00000KT")]) (some 0))
      else none)
    (fun _ _ => none) (fun _ _ => none)

/-- C4: Budget gate — when `under_budget(providerName)` is false at entry,
`safeRequest` returns the `budget_exhausted` error result immediately: the
trace of side effects is zero HTTP requests, zero rate-limiter tokens, and
zero `add_usage` invocations (so the usage ledger is unchanged). -/
theorem C4_budget_gate (budgets : String → Option ℤ) (st : LedgerStore)
    (provider : String) (outcomes : Nat → AttemptOutcome) (maxRetries : Nat)
    (hub : under_budget budgets st provider = Except.ok false) :
    safeRequest budgets st provider outcomes maxRetries =
      Except.ok (J.obj [("error", J.str "budget_exhausted")], Trace.mk 0 0 0) := by
  unfold safeRequest
  rw [hub]
  rfl

/-- Witness for C4: with the default budgets, a ledger already at 900 calls
for openweathermap (budget 900) makes `under_budget` false, and
`safeRequest` fails fast with no attempt. -/
theorem C4_budget_gate_witness :
    safeRequest DAILY_BUDGETS (okLedger (some 900)) "openweathermap"
        (fun _ => AttemptOutcome.timeout "t") 3 =
      Except.ok (J.obj [("error", J.str "budget_exhausted")], Trace.mk 0 0 0) :=
  C4_budget_gate DAILY_BUDGETS (okLedger (some 900)) "openweathermap"
    (fun _ => AttemptOutcome.timeout "t") 3 rfl

/-- C6 counterexample: with the default budgets, a provider with a
configured budget ("openweathermap", 900/day) and a ledger whose read
raises: `under_budget` propagates the storage error to its caller instead
of logging it and returning true. -/
theorem C6_counterexample :
    under_budget DAILY_BUDGETS (failingLedger "ledger outage") "openweathermap" =
        Except.error "ledger outage" ∧
      under_budget DAILY_BUDGETS (failingLedger "ledger outage") "openweathermap" ≠
        Except.ok true :=
  ⟨rfl, fun h => Except.noConfusion h⟩

/-- C6 amended: a usage-ledger read failure is *not* recovered inside
`under_budget`: whenever a nonzero budget is configured for the provider
and the storage read raises, the error propagates to the caller of
`under_budget` (the provider is not treated as under budget).  Only the
ledger *write* (`add_usage` inside `safeRequest`) is wrapped in a
log-and-swallow handler in the source. -/
theorem C6_amended (budgets : String → Option ℤ) (st : LedgerStore)
    (provider e : String) (b : ℤ) (hb : budgets provider = some b)
    (hb0 : b ≠ 0) (hread : st.read provider = Except.error e) :
    under_budget budgets st provider = Except.error e := by
  unfold under_budget get_usage
  simp only [hb, if_neg hb0, hread]

/-- Witness for C6 amended, at the default budgets and an outage ledger. -/
theorem C6_amended_witness :
    under_budget DAILY_BUDGETS (failingLedger "db locked") "aviationstack" =
      Except.error "db locked" :=
  C6_amended DAILY_BUDGETS (failingLedger "db locked") "aviationstack" "db locked"
    1000 rfl (by decide) rfl

/-- C8 counterexample: with a configured daily budget of `0` and a ledger
count of `5`, `under_budget` returns true (`if not budget` treats the
configured `0` as "no budget"), while the spec formula — no budget
configured, or count < budget — is false. -/
theorem C8_counterexample :
    under_budget (fun _ => some 0) (okLedger (some 5)) "aviationstack" =
        Except.ok true ∧
      underBudgetSpecFormula (fun _ => some 0) 5 "aviationstack" = false :=
  ⟨rfl, rfl⟩

/-- C8 amended: `under_budget` agrees with the spec formula whenever the
configured budget for the provider is not the falsy value `0` (it is
absent, or nonzero) and the ledger read succeeds with count `u`. -/
theorem C8_amended (budgets : String → Option ℤ) (st : LedgerStore)
    (provider : String) (u : ℤ) (hu : get_usage st provider = Except.ok u)
    (hb : budgets provider ≠ some 0) :
    under_budget budgets st provider =
      Except.ok (underBudgetSpecFormula budgets u provider) := by
  unfold under_budget underBudgetSpecFormula
  cases hbp : budgets provider with
  | none => rfl
  | some b =>
    have hb0 : b ≠ 0 := by
      intro h
      exact hb (by rw [hbp, h])
    simp only [if_neg hb0, hu]

/-- Witness for C8 amended: opensky at the default budgets (380/day) with
379 calls used is still under budget, matching the spec formula. -/
theorem C8_amended_witness :
    under_budget DAILY_BUDGETS (okLedger (some 379)) "opensky" =
      Except.ok (underBudgetSpecFormula DAILY_BUDGETS 379 "opensky") :=
  C8_amended DAILY_BUDGETS (okLedger (some 379)) "opensky" 379 rfl (by decide)

/-- One `acquire` call preserves the token-bucket invariant: with a
nonnegative rate, capacity and cost, and a monotone clock, the new token
count stays within `[0, capacity]`, rate and capacity are untouched,
`last` becomes `now`, and the sleep time is nonnegative. -/
theorem acquire_step (s : SimpleRateLimiter) (now cost : ℚ) (hR : 0 ≤ s.rate)
    (hC : 0 ≤ s.capacity) (h0 : 0 ≤ s.tokens) (h1 : s.tokens ≤ s.capacity)
    (hlast : s.last ≤ now) (hcost : 0 ≤ cost) :
    RLInv (s.acquire now cost).1 ∧ (s.acquire now cost).1.rate = s.rate ∧
      (s.acquire now cost).1.capacity = s.capacity ∧
      (s.acquire now cost).1.last = now ∧ 0 ≤ (s.acquire now cost).2 := by
  have hk := min_le_left s.capacity (s.tokens + (now - s.last) * s.rate)
  simp only [SimpleRateLimiter.acquire, RLInv]
  by_cases hc : cost ≤ min s.capacity (s.tokens + (now - s.last) * s.rate)
  · rw [if_pos hc]
    refine ⟨⟨?_, ?_⟩, rfl, rfl, rfl, le_refl 0⟩
    · show 0 ≤ min s.capacity (s.tokens + (now - s.last) * s.rate) - cost
      linarith
    · show min s.capacity (s.tokens + (now - s.last) * s.rate) - cost ≤ s.capacity
      linarith
  · rw [if_neg hc]
    refine ⟨⟨le_refl 0, ?_⟩, rfl, rfl, rfl, le_max_left 0 _⟩
    show (0 : ℚ) ≤ s.capacity
    exact hC

/-- The invariant is preserved along any sequence of `acquire()` calls. -/
theorem runAcquires_inv (gaps : List ℚ) : ∀ (s : SimpleRateLimiter) (t : ℚ),
    0 ≤ s.rate → 0 ≤ s.capacity → RLInv s → s.last ≤ t →
    (∀ g ∈ gaps, 0 ≤ g) →
    RLInv (runAcquires s t gaps).1 ∧
      (runAcquires s t gaps).1.rate = s.rate ∧
      (runAcquires s t gaps).1.capacity = s.capacity ∧
      (runAcquires s t gaps).1.last ≤ (runAcquires s t gaps).2 := by
  induction gaps with
  | nil =>
    intro s t hR hC hinv hlast _
    exact ⟨hinv, rfl, rfl, hlast⟩
  | cons g gs ih =>
    intro s t hR hC hinv hlast hg
    have hg0 : 0 ≤ g := hg g (List.mem_cons_self g gs)
    have hgs : ∀ x ∈ gs, 0 ≤ x := fun x hx => hg x (List.mem_cons_of_mem g hx)
    have hw : s.last ≤ t + g := by linarith
    obtain ⟨hinv2, hrate2, hcap2, hlast2, hsleep2⟩ :=
      acquire_step s (t + g) 1 hR hC hinv.1 hinv.2 hw (by norm_num)
    have hlast3 : (s.acquire (t + g) 1).1.last ≤ t + g + (s.acquire (t + g) 1).2 := by
      rw [hlast2]; linarith
    have := ih (s.acquire (t + g) 1).1 (t + g + (s.acquire (t + g) 1).2)
      (hrate2 ▸ hR) (hcap2 ▸ hC) hinv2 hlast3 hgs
    simpa [runAcquires, hrate2, hcap2] using this

/-- Unfolding one call of a run: the call happens at `t + g` and the run
continues at `t + g` plus the sleep time. -/
theorem runAcquires_cons (s : SimpleRateLimiter) (t g : ℚ) (gs : List ℚ) :
    runAcquires s t (g :: gs) =
      runAcquires (s.acquire (t + g) 1).1 (t + g + (s.acquire (t + g) 1).2) gs := rfl

/-- Pacing bound: along any run of 1-token `acquire()` calls, the number
of calls is bounded by `2 * rate * elapsedTime` plus the tokens initially
available (the factor 2 is forced by the source: `last` is set before the
sleep, so each sleep interval is credited again as refill time at the next
call). -/
theorem runAcquires_bound (gaps : List ℚ) : ∀ (s : SimpleRateLimiter) (t : ℚ),
    0 < s.rate → 0 ≤ s.capacity → RLInv s → s.last ≤ t →
    (∀ g ∈ gaps, 0 ≤ g) →
    (gaps.length : ℚ) + (runAcquires s t gaps).1.tokens +
        ((runAcquires s t gaps).2 - (runAcquires s t gaps).1.last) * s.rate ≤
      2 * s.rate * ((runAcquires s t gaps).2 - t) + (t - s.last) * s.rate + s.tokens := by
  induction gaps with
  | nil =>
    intro s t hR hC hinv hlast hg
    simp only [runAcquires, List.length_nil, Nat.cast_zero]
    linarith
  | cons g gs ih =>
    intro s t hR hC hinv hlast hg
    obtain ⟨htok0, htokC⟩ := hinv
    have hg0 : 0 ≤ g := hg g (List.mem_cons_self g gs)
    have hgs : ∀ x ∈ gs, 0 ≤ x := fun x hx => hg x (List.mem_cons_of_mem g hx)
    have hw : s.last ≤ t + g :=  by linarith
    have hmr : min s.capacity (s.tokens + (t + g - s.last) * s.rate) ≤
        s.tokens + (t + g - s.last) * s.rate := min_le_right _ _
    have hml : min s.capacity (s.tokens + (t + g - s.last) * s.rate) ≤ s.capacity :=
      min_le_left _ _
    have hm0 : 0 ≤ min s.capacity (s.tokens + (t + g - s.last) * s.rate) :=
      le_min hC (by nlinarith [mul_nonneg (sub_nonneg.mpr hw) hR.le])
    have hgr : 0 ≤ g * s.rate := mul_nonneg hg0 hR.le
    rw [runAcquires_cons]
    by_cases hc : (1 : ℚ) ≤ min s.capacity (s.tokens + (t + g - s.last) * s.rate)
    · have ha : s.acquire (t + g) 1 =
          (SimpleRateLimiter.mk s.rate s.capacity
            (min s.capacity (s.tokens + (t + g - s.last) * s.rate) - 1) (t + g), 0) := by
        simp only [SimpleRateLimiter.acquire]
        rw [if_pos hc]
      rw [ha]
      have hi1 : (0 : ℚ) ≤ min s.capacity (s.tokens + (t + g - s.last) * s.rate) - 1 := by
        linarith
      have hi2 : min s.capacity (s.tokens + (t + g - s.last) * s.rate) - 1 ≤ s.capacity := by
        linarith
      have IH := ih (SimpleRateLimiter.mk s.rate s.capacity
          (min s.capacity (s.tokens + (t + g - s.last) * s.rate) - 1) (t + g))
          (t + g + 0) hR hC ⟨hi1, hi2⟩ (by norm_num) hgs
      dsimp only at IH ⊢
      push_cast [List.length_cons]
      linarith
    · obtain ⟨slp, hslpdef⟩ : ∃ x : ℚ,
          x = (1 - min s.capacity (s.tokens + (t + g - s.last) * s.rate)) / s.rate :=
        ⟨_, rfl⟩
      have hslpnn : 0 ≤ slp := by
        rw [hslpdef]
        exact div_nonneg (by linarith [not_le.mp hc]) hR.le
      have ha : s.acquire (t + g) 1 =
          (SimpleRateLimiter.mk s.rate s.capacity 0 (t + g), slp) := by
        simp only [SimpleRateLimiter.acquire]
        rw [if_neg hc, hslpdef, max_eq_right (hslpdef ▸ hslpnn)]
      rw [ha]
      have hslpR : slp * s.rate =
          1 - min s.capacity (s.tokens + (t + g - s.last) * s.rate) := by
        rw [hslpdef]
        exact div_mul_cancel₀ _ (ne_of_gt hR)
      have IH := ih (SimpleRateLimiter.mk s.rate s.capacity 0 (t + g)) (t + g + slp)
          hR hC ⟨le_refl 0, hC⟩ (show (t + g : ℚ) ≤ t + g + slp by linarith) hgs
      dsimp only at IH ⊢
      push_cast [List.length_cons]
      linarith

/-- C9: Token-bucket invariant — for every `SimpleRateLimiter` built with
nonnegative rate and capacity, `0 ≤ tokens ≤ capacity` holds immediately
after construction and after every `acquire()` call: quantifying over all
nonnegative gap sequences covers every observation point, since every
prefix of a run is itself a run. -/
theorem C9_token_bucket_invariant (R C t0 : ℚ) (gaps : List ℚ) (hR : 0 ≤ R)
    (hC : 0 ≤ C) (hg : ∀ g ∈ gaps, 0 ≤ g) :
    RLInv (SimpleRateLimiter.init R C t0) ∧
      RLInv (runAcquires (SimpleRateLimiter.init R C t0) t0 gaps).1 := by
  have h0 : RLInv (SimpleRateLimiter.init R C t0) := ⟨hC, le_refl C⟩
  exact ⟨h0, (runAcquires_inv gaps (SimpleRateLimiter.init R C t0) t0 hR hC h0
    (le_refl t0) hg).1⟩

/-- Witness for C9 at rate 2, capacity 2, and three calls. -/
theorem C9_token_bucket_invariant_witness :
    RLInv (SimpleRateLimiter.init 2 2 0) ∧
      RLInv (runAcquires (SimpleRateLimiter.init 2 2 0) 0 [0, 1/2, 3]).1 :=
  C9_token_bucket_invariant 2 2 0 [0, 1/2, 3] (by norm_num) (by norm_num)
    (by intro g hg; fin_cases hg <;> norm_num)

/-- C5 counterexample: capacity `C = 1`, rate `R = 1` token/sec, and
`N = 3` back-to-back `acquire()` calls (all wall-clock gaps zero, so the
end-to-end time is exactly the time slept inside `acquire`).  The three
calls finish at time 1, but the claimed lower bound `(N - C) / R` is 2:
the claim fails because `acquire` stores `last = now` before sleeping, so
the sleep interval is double-counted as refill time by the next call. -/
theorem C5_counterexample :
    (1 : ℚ) < 3 ∧
      (runAcquires (SimpleRateLimiter.init 1 1 0) 0 [0, 0, 0]).2 - 0 = 1 ∧
      ¬ (((3 : ℚ) - 1) / 1 ≤ (runAcquires (SimpleRateLimiter.init 1 1 0) 0 [0, 0, 0]).2 - 0) := by
  have step : runAcquires (SimpleRateLimiter.init 1 1 0) 0 [0, 0, 0] =
      (SimpleRateLimiter.mk 1 1 0 1, 1) := by
    norm_num [runAcquires, SimpleRateLimiter.acquire, SimpleRateLimiter.init, min_def]
  rw [step]
  norm_num

/-- C5 amended: for a bucket with capacity `C` and rate `R` tokens/sec,
any `N > C` sequential `acquire()` calls (1 token each) take at least
`(N - C) / (2 * R)` seconds end-to-end, where elapsed time is the modeled
wall-clock advance plus the total time slept inside `acquire`.  (The
bound `(N - C) / R` of the claim is halved because the sleep time is
double-counted as refill; the counterexample shows the halved bound is
tight.) -/
theorem C5_pacing_amended (R C t0 : ℚ) (gaps : List ℚ) (hR : 0 < R) (hC : 0 ≤ C)
    (hN : C < (gaps.length : ℚ)) (hg : ∀ g ∈ gaps, 0 ≤ g) :
    ((gaps.length : ℚ) - C) / (2 * R) ≤
      (runAcquires (SimpleRateLimiter.init R C t0) t0 gaps).2 - t0 := by
  have h0 : RLInv (SimpleRateLimiter.init R C t0) := ⟨hC, le_refl C⟩
  have hb := runAcquires_bound gaps (SimpleRateLimiter.init R C t0) t0 hR hC h0
    (le_refl t0) hg
  have hi := runAcquires_inv gaps (SimpleRateLimiter.init R C t0) t0 hR.le hC h0
    (le_refl t0) hg
  obtain ⟨⟨hti0, _⟩, _, _, hlastle⟩ := hi
  dsimp only [SimpleRateLimiter.init] at hb
  have hP : 0 ≤ ((runAcquires (SimpleRateLimiter.init R C t0) t0 gaps).2 -
      (runAcquires (SimpleRateLimiter.init R C t0) t0 gaps).1.last) * R :=
    mul_nonneg (by linarith) hR.le
  rw [div_le_iff₀ (by linarith : (0 : ℚ) < 2 * R)]
  dsimp only [SimpleRateLimiter.init] at hP hti0 ⊢
  linarith [hb, hti0, hP]

/-- Witness for C5 amended: 3 back-to-back calls on a fresh bucket with
`C = R = 1` take at least 1 second. -/
theorem C5_pacing_amended_witness :
    ((([0, 0, 0] : List ℚ).length : ℚ) - 1) / (2 * 1) ≤
      (runAcquires (SimpleRateLimiter.init 1 1 0) 0 [0, 0, 0]).2 - 0 :=
  C5_pacing_amended 1 1 0 [0, 0, 0] (by norm_num) (by norm_num) (by norm_num)
    (by intro g hg; fin_cases hg <;> norm_num)

theorem count2xx_zero (outcomes : Nat → AttemptOutcome) (i : Nat) :
    count2xx outcomes i 0 = 0 := rfl

theorem count2xx_succ (outcomes : Nat → AttemptOutcome) (i n : Nat) :
    count2xx outcomes i (n + 1) =
      (if attempt2xx (outcomes i) = true then 1 else 0) + count2xx outcomes (i + 1) n := by
  unfold count2xx
  rw [List.range_succ_eq_map, List.countP_cons]
  have hmap : List.countP (fun j => attempt2xx (outcomes (i + j)))
        (List.map Nat.succ (List.range n)) =
      List.countP (fun j => attempt2xx (outcomes (i + 1 + j))) (List.range n) := by
    rw [List.countP_map]
    congr 1
    funext j
    simp only [Function.comp_apply]
    have hj : i + Nat.succ j = i + 1 + j := by omega
    rw [hj]
  rw [hmap]
  have h0 : i + 0 = i := rfl
  rw [h0]
  by_cases h2 : attempt2xx (outcomes i) = true
  · simp only [h2, if_true]
    omega
  · simp only [h2, if_false]
    omega

theorem count2xx_succ_true (outcomes : Nat → AttemptOutcome) (i n : Nat)
    (h : attempt2xx (outcomes i) = true) :
    count2xx outcomes i (n + 1) = 1 + count2xx outcomes (i + 1) n := by
  rw [count2xx_succ, h, if_pos rfl]

theorem count2xx_succ_false (outcomes : Nat → AttemptOutcome) (i n : Nat)
    (h : attempt2xx (outcomes i) = false) :
    count2xx outcomes i (n + 1) = count2xx outcomes (i + 1) n := by
  rw [count2xx_succ, h]
  simp

theorem safeRequestLoop_counts (provider : String) (outcomes : Nat → AttemptOutcome)
    (halpha : ∀ k, claimOutcome (outcomes k)) :
    ∀ (fuel i : Nat) (backoff : ℚ) (lastError : Option String) (tr : Trace),
    ∃ n, (safeRequestLoop provider outcomes fuel i backoff lastError tr).2 =
      Trace.mk (tr.acquires + n) (tr.httpCalls + n)
        (tr.addUsageCalls + count2xx outcomes i n) := by
  intro fuel
  induction fuel with
  | zero =>
    intro i backoff lastError tr
    exact ⟨0, by simp [safeRequestLoop, count2xx_zero]⟩
  | succ fuel ih =>
    intro i backoff lastError tr
    unfold safeRequestLoop
    cases ho : outcomes i with
    | timeout m =>
      dsimp only
      obtain ⟨n, hn⟩ := ih (i + 1) (min (backoff * 2) 16) (some m)
        (Trace.mk (tr.acquires + 1) (tr.httpCalls + 1) tr.addUsageCalls)
      dsimp only at hn
      refine ⟨n + 1, ?_⟩
      have h2 : attempt2xx (outcomes i) = false := by rw [ho]; rfl
      rw [hn, count2xx_succ_false outcomes i n h2]
      congr 1 <;> omega
    | connError m =>
      dsimp only
      obtain ⟨n, hn⟩ := ih (i + 1) (min (backoff * 2) 16) (some m)
        (Trace.mk (tr.acquires + 1) (tr.httpCalls + 1) tr.addUsageCalls)
      dsimp only at hn
      refine ⟨n + 1, ?_⟩
      have h2 : attempt2xx (outcomes i) = false := by rw [ho]; rfl
      rw [hn, count2xx_succ_false outcomes i n h2]
      congr 1 <;> omega
    | status code body =>
      dsimp only
      by_cases hretry : code = 429 ∨ (500 ≤ code ∧ code < 600)
      · rw [if_pos hretry]
        obtain ⟨n, hn⟩ := ih (i + 1) (min (backoff * 2) 16)
          (some (provider ++ " HTTP " ++ toString code))
          (Trace.mk (tr.acquires + 1) (tr.httpCalls + 1) tr.addUsageCalls)
        dsimp only at hn
        refine ⟨n + 1, ?_⟩
        have h2 : attempt2xx (outcomes i) = false := by
          rw [ho]
          simp only [attempt2xx, decide_eq_false_iff_not]
          omega
        rw [hn, count2xx_succ_false outcomes i n h2]
        congr 1 <;> omega
      · rw [if_neg hretry]
        by_cases h4 : 400 ≤ code
        · rw [if_pos h4]
          dsimp only
          refine ⟨1, ?_⟩
          have h2 : attempt2xx (outcomes i) = false := by
            rw [ho]
            simp only [attempt2xx, decide_eq_false_iff_not]
            omega
          rw [count2xx_succ_false outcomes i 0 h2, count2xx_zero]
          congr 1 <;> omega
        · rw [if_neg h4]
          dsimp only
          refine ⟨1, ?_⟩
          have h2 : attempt2xx (outcomes i) = true := by
            have halio := halpha i
            rw [ho] at halio
            simp only [claimOutcome] at halio
            rw [ho]
            simp only [attempt2xx, decide_eq_true_eq]
            rcases halio with hk | hk | hk | hk <;> omega
          rw [count2xx_succ_true outcomes i 0 h2, count2xx_zero]

/-- C7: Usage counted only on success — in every `safeRequest` execution
whose attempt outcomes lie in the spec taxonomy (2xx, 429, other 4xx,
5xx, timeout, connection error), every attempt (including retries)
consumes exactly one rate-limiter token (`acquires = httpCalls`), and
`add_usage(provider, 1)` is invoked exactly once per attempt that yields
a 2xx response and never for a failed attempt (`addUsageCalls` equals the
number of 2xx outcomes among the attempts performed). -/
theorem C7_usage_on_success (budgets : String → Option ℤ) (st : LedgerStore)
    (provider : String) (outcomes : Nat → AttemptOutcome) (maxRetries : Nat)
    (res : J) (tr : Trace) (halpha : ∀ k, claimOutcome (outcomes k))
    (h : safeRequest budgets st provider outcomes maxRetries = Except.ok (res, tr)) :
    tr.acquires = tr.httpCalls ∧
      tr.addUsageCalls = count2xx outcomes 0 tr.httpCalls := by
  unfold safeRequest at h
  cases hub : under_budget budgets st provider with
  | error e =>
    rw [hub] at h
    exact absurd h (by simp)
  | ok ub =>
    rw [hub] at h
    cases ub with
    | true =>
      simp only [if_true, Except.ok.injEq] at h
      obtain ⟨n, hn⟩ := safeRequestLoop_counts provider outcomes halpha maxRetries 0 1
        none (Trace.mk 0 0 0)
      have htr : (safeRequestLoop provider outcomes maxRetries 0 1 none
          (Trace.mk 0 0 0)).2 = tr := by rw [h]
      rw [hn] at htr
      rw [← htr]
      constructor
      · rfl
      · simp
    | false =>
      simp only [Bool.false_eq_true, if_false, Except.ok.injEq] at h
      have htr : (Trace.mk 0 0 0 : Trace) = tr := congrArg Prod.snd h
      rw [← htr]
      constructor
      · rfl
      · rw [count2xx_zero]

/-- Witness for C7: three timeouts exhaust the retries; three attempts,
three limiter tokens, and no usage increment. -/
theorem C7_usage_on_success_witness :
    (Trace.mk 3 3 0 : Trace).acquires = (Trace.mk 3 3 0 : Trace).httpCalls ∧
      (Trace.mk 3 3 0 : Trace).addUsageCalls =
        count2xx (fun _ => AttemptOutcome.timeout "t") 0 (Trace.mk 3 3 0 : Trace).httpCalls :=
  C7_usage_on_success (fun _ => none) (okLedger none) "openstreetmap"
    (fun _ => AttemptOutcome.timeout "t") 3
    (J.obj [("error", J.str "t")]) (Trace.mk 3 3 0)
    (fun _ => trivial) rfl

theorem get_cached_status (c : Client) (M : Category → ℚ) (db : Db) (now : ℚ)
    (key : String) (ttl : ℚ) (als : Bool) (p : ProviderResponse)
    (h : get_cached c M db now key ttl als = some p) :
    p.cache = "hit" ∨ p.cache = "stale" := by
  cases c <;>
    (unfold get_cached at h
     dsimp only [category] at h
     repeat' split at h
     all_goals first
       | (rw [Option.some.injEq] at h; subst h; simp)
       | exact Option.noConfusion h)

theorem gcof_of_hit (c : Client) (M : Category → ℚ) (B : String → Option ℤ)
    (st : LedgerStore) (db : Db) (now : ℚ) (key : String) (ttl : ℚ) (r : J)
    (d : ℚ) (u : Bool) (p : ProviderResponse)
    (h : get_cached c M db now key ttl false = some p) :
    getCachedOrFetch c M B st db now key ttl r d u =
      Except.ok (FetchOut.mk p db 0 now) := by
  unfold getCachedOrFetch
  rw [h]

theorem gcof_fetchCalls_le_one (c : Client) (M : Category → ℚ)
    (B : String → Option ℤ) (st : LedgerStore) (db : Db) (now : ℚ)
    (key : String) (ttl : ℚ) (r : J) (d : ℚ) (u : Bool) (o : FetchOut)
    (h : getCachedOrFetch c M B st db now key ttl r d u = Except.ok o) :
    o.fetchCalls ≤ 1 := by
  unfold getCachedOrFetch at h
  dsimp only at h
  repeat' split at h
  all_goals first
    | (rw [Except.ok.injEq] at h; subst h; simp)
    | exact Except.noConfusion h

theorem gcof_success (c : Client) (M : Category → ℚ) (B : String → Option ℤ)
    (st : LedgerStore) (db : Db) (now : ℚ) (key : String) (ttl : ℚ) (r : J)
    (d : ℚ) (u : Bool) (o : FetchOut) (hr : isErr r = false) (hu : u = true)
    (h : getCachedOrFetch c M B st db now key ttl r d u = Except.ok o) :
    (o.fetchCalls = 0 ∧ o.db = db) ∨
      (o.fetchCalls = 1 ∧ o.db = upsertDb c db key r (now + d)) := by
  unfold getCachedOrFetch at h
  dsimp only at h
  repeat' split at h
  all_goals first
    | (rw [Except.ok.injEq] at h; subst h; simp; done)
    | exact Except.noConfusion h
    | simp_all

theorem get_cached_none_of_aged (c : Client) (M : Category → ℚ) (db : Db)
    (now : ℚ) (key : String) (ttl a : ℚ)
    (ha : cacheRowAge c db now key = some a) (h1 : ¬ a < ttl) :
    get_cached c M db now key ttl false = none := by
  cases c <;> (
    unfold cacheRowAge at ha
    dsimp only [category] at ha
    rw [Option.map_eq_some'] at ha
    obtain ⟨row, hrow, hage⟩ := ha
    unfold get_cached
    dsimp only [category]
    rw [hrow]
    dsimp only
    rw [hage, if_neg h1, if_neg (by simp)])

theorem get_cached_stale_of_aged (c : Client) (M : Category → ℚ) (db : Db)
    (now : ℚ) (key : String) (ttl a : ℚ)
    (ha : cacheRowAge c db now key = some a) (h1 : ¬ a < ttl)
    (h2 : a < M (category c)) :
    ∃ p, get_cached c M db now key ttl true = some p ∧ p.cache = "stale" := by
  cases c <;> (
    unfold cacheRowAge at ha
    dsimp only [category] at ha
    rw [Option.map_eq_some'] at ha
    obtain ⟨row, hrow, hage⟩ := ha
    unfold get_cached
    dsimp only [category] at h2 ⊢
    rw [hrow]
    dsimp only
    rw [hage, if_neg h1, if_pos ⟨rfl, h2⟩]
    exact ⟨_, rfl, rfl⟩)

/-- C2: Stale-serve on budget exhaustion — if a cache row for
`(category, key, providerSource)` exists with age `a`, `ttl ≤ a`,
`a < maxStale[category]`, and `under_budget(provider)` is false, then
`getCachedOrFetch` returns that row's rendering (the value `_get_cached`
produces from the stored row) with cache status `stale`, invokes `fetchFn`
zero times (for every fetch result `r`, duration `d`, and write-back
outcome `u`), and leaves the cache store unchanged. -/
theorem C2_stale_on_budget_exhaustion (c : Client) (M : Category → ℚ)
    (B : String → Option ℤ) (st : LedgerStore) (db : Db) (now : ℚ)
    (key : String) (ttl a : ℚ)
    (ha : cacheRowAge c db now key = some a) (h1 : ttl ≤ a)
    (h2 : a < M (category c))
    (hub : under_budget B st (providerName c) = Except.ok false) :
    ∃ p, get_cached c M db now key ttl true = some p ∧ p.cache = "stale" ∧
      ∀ r d u, getCachedOrFetch c M B st db now key ttl r d u =
        Except.ok (FetchOut.mk p db 0 now) := by
  have hfresh := get_cached_none_of_aged c M db now key ttl a ha (not_lt.mpr h1)
  obtain ⟨p, hp, hpc⟩ :=
    get_cached_stale_of_aged c M db now key ttl a ha (not_lt.mpr h1) h2
  refine ⟨p, hp, hpc, ?_⟩
  intro r d u
  unfold getCachedOrFetch
  rw [hfresh, hub]
  dsimp only
  simp only [Bool.not_false, if_true, hp]

theorem get_cached_stale_cache (c : Client) (M : Category → ℚ) (db : Db)
    (now d : ℚ) (key : String) (ttl : ℚ) (s : ProviderResponse) (hd : 0 ≤ d)
    (hfresh : get_cached c M db now key ttl false = none)
    (hs : get_cached c M db (now + d) key ttl true = some s) :
    s.cache = "stale" := by
  cases c <;> (
    unfold get_cached at hfresh hs
    dsimp only [category] at hfresh hs
    split at hs
    · exact Option.noConfusion hs
    · rename_i row heq
      rw [heq] at hfresh
      dsimp only at hfresh
      have hnf : ¬ recency now row.lastUpdated < ttl := by
        intro hlt
        rw [if_pos hlt] at hfresh
        exact Option.noConfusion hfresh
      have hmono : recency now row.lastUpdated ≤ recency (now + d) row.lastUpdated := by
        cases row.lastUpdated <;> (dsimp only [recency]; linarith)
      rw [if_neg (fun hlt => hnf (lt_of_le_of_lt hmono hlt))] at hs
      split at hs
      · rw [Option.some.injEq] at hs
        subst hs
        rfl
      · exact Option.noConfusion hs)

theorem normalize_embeds (c : Client) (r : J) (hr : isErr r = true) :
    embedsRaw (normalizeForReturn c r) r := by
  have htr : jTruthy r = true := by
    cases r with
    | obj kvs =>
      cases kvs with
      | nil => simp [isErr, pyGet, jTruthy] at hr
      | cons kv rest => simp [jTruthy]
    | null => simp [isErr] at hr
    | boolv b => simp [isErr] at hr
    | str s => simp [isErr] at hr
    | num n => simp [isErr] at hr
    | arr xs => simp [isErr] at hr
  have hpyor : pyOr r (J.obj []) = r := by simp [pyOr, htr]
  cases c
  case openWeatherMap =>
    refine Or.inr (Or.inl ?_)
    show pyGet (normalizeForReturn Client.openWeatherMap r) "weather" = r
    dsimp only [normalizeForReturn, category]
    rw [hpyor]
    rfl
  case aviationWeather =>
    refine Or.inr (Or.inl ?_)
    show pyGet (normalizeForReturn Client.aviationWeather r) "weather" = r
    dsimp only [normalizeForReturn, category]
    rw [hpyor]
    rfl
  case openStreetMap =>
    refine Or.inr (Or.inr (Or.inl ?_))
    show pyGet (normalizeForReturn Client.openStreetMap r) "result" = r
    dsimp only [normalizeForReturn, category]
    rw [hpyor]
    rfl
  case aviationStack =>
    exact Or.inr (Or.inr (Or.inr rfl))
  case openSky =>
    exact Or.inr (Or.inr (Or.inr rfl))

theorem gcof_fetch_eq (c : Client) (M : Category → ℚ) (B : String → Option ℤ)
    (st : LedgerStore) (db : Db) (now : ℚ) (key : String) (ttl : ℚ) (r : J)
    (d : ℚ) (u : Bool) (ub : Bool)
    (hfresh : get_cached c M db now key ttl false = none)
    (hub : under_budget B st (providerName c) = Except.ok ub)
    (hstale0 : ub = false → get_cached c M db now key ttl true = none) :
    getCachedOrFetch c M B st db now key ttl r d u =
      if isErr r = true then
        (match get_cached c M db (now + d) key ttl true with
         | some stale => Except.ok (FetchOut.mk stale db 1 (now + d))
         | none => Except.ok (FetchOut.mk
             (ProviderResponse.mk (normalizeForReturn c r) (providerName c) "miss")
             db 1 (now + d)))
      else Except.ok (FetchOut.mk
        (ProviderResponse.mk (normalizeForReturn c r) (providerName c) "miss")
        (if u then upsertDb c db key r (now + d) else db) 1 (now + d)) := by
  unfold getCachedOrFetch
  rw [hfresh, hub]
  dsimp only
  cases ub
  · simp only [Bool.not_false, if_true, hstale0 rfl]
  · simp only [Bool.not_true, Bool.false_eq_true, if_false]

/-- C3: Stale fallback on live failure, explicit error otherwise — when
the orchestrator reaches the fetch (fresh lookup missed; either the
provider is under budget or the over-budget stale lookup missed) and
`fetchFn` returns an error result, `getCachedOrFetch` performs a stale
lookup within `maxStale[category]` at the post-fetch instant: if a row in
that window exists it is returned unchanged with status `stale`;
otherwise the `miss` response's payload is the normalization of the error
result, which embeds the whole error dictionary (so the caller receives
an explicit failure indicator, never a silently empty success); in both
cases the store is not written and `fetchFn` ran exactly once (for every
write-back outcome `u` — no write is attempted on this path). -/
theorem C3_stale_on_live_failure (c : Client) (M : Category → ℚ)
    (B : String → Option ℤ) (st : LedgerStore) (db : Db) (now : ℚ)
    (key : String) (ttl : ℚ) (r : J) (d : ℚ) (u : Bool) (ub : Bool)
    (hd : 0 ≤ d) (hr : isErr r = true)
    (hfresh : get_cached c M db now key ttl false = none)
    (hub : under_budget B st (providerName c) = Except.ok ub)
    (hstale0 : ub = false → get_cached c M db now key ttl true = none) :
    (∀ s, get_cached c M db (now + d) key ttl true = some s →
        getCachedOrFetch c M B st db now key ttl r d u =
          Except.ok (FetchOut.mk s db 1 (now + d)) ∧ s.cache = "stale") ∧
      (get_cached c M db (now + d) key ttl true = none →
        getCachedOrFetch c M B st db now key ttl r d u =
          Except.ok (FetchOut.mk
            (ProviderResponse.mk (normalizeForReturn c r) (providerName c) "miss")
            db 1 (now + d)) ∧
        embedsRaw (normalizeForReturn c r) r) := by
  have hrun := gcof_fetch_eq c M B st db now key ttl r d u ub hfresh hub hstale0
  simp only [hr, if_true] at hrun
  constructor
  · intro s hs
    rw [hs] at hrun
    exact ⟨hrun, get_cached_stale_cache c M db now d key ttl s hd hfresh hs⟩
  · intro hnone
    rw [hnone] at hrun
    exact ⟨hrun, normalize_embeds c r hr⟩

/-- C10: every value `getCachedOrFetch` returns is a `ProviderResponse`
whose `cache` field is exactly one of `hit`, `stale`, `miss`; `hit` and
`stale` appear only on responses served from a cache lookup
(`_get_cached`); every `miss` response carries the normalized fetch
result as payload — including a failed fetch whose payload embeds an
error — so the cache-status field alone does not distinguish a fresh
successful fetch from an error payload, as the two concrete runs in the
last conjunct show (both are labelled `miss`; one is a success, the
other's payload carries the error marker). -/
theorem C10_cache_status_partition (c : Client) (M : Category → ℚ)
    (B : String → Option ℤ) (st : LedgerStore) (db : Db) (now : ℚ)
    (key : String) (ttl : ℚ) (r : J) (d : ℚ) (u : Bool) (o : FetchOut)
    (h : getCachedOrFetch c M B st db now key ttl r d u = Except.ok o) :
    (o.resp.cache = "hit" ∨ o.resp.cache = "stale" ∨ o.resp.cache = "miss") ∧
      ((o.resp.cache = "hit" ∨ o.resp.cache = "stale") →
        (get_cached c M db now key ttl false = some o.resp ∨
          get_cached c M db now key ttl true = some o.resp ∨
          get_cached c M db (now + d) key ttl true = some o.resp)) ∧
      (o.resp.cache = "miss" →
        o.resp.data = normalizeForReturn c r ∧
          o.resp.provider = providerName c) ∧
      (∃ oS oE,
        getCachedOrFetch Client.openStreetMap MAX_STALE (fun _ => none)
            (okLedger none) emptyDb 0 "q" 86400
            (J.obj [("display", J.str "x")]) 0 true = Except.ok oS ∧
        getCachedOrFetch Client.openStreetMap MAX_STALE (fun _ => none)
            (okLedger none) emptyDb 0 "q" 86400
            (J.obj [("error", J.str "boom")]) 0 true = Except.ok oE ∧
        oS.resp.cache = "miss" ∧ oE.resp.cache = "miss" ∧
        isErr (J.obj [("display", J.str "x")]) = false ∧
        isErr (J.obj [("error", J.str "boom")]) = true ∧
        jTruthy (pyGet (pyGet oE.resp.data "result") "error") = true) := by
  have habc : (o.resp.cache = "hit" ∨ o.resp.cache = "stale" ∨ o.resp.cache = "miss") ∧
      ((o.resp.cache = "hit" ∨ o.resp.cache = "stale") →
        (get_cached c M db now key ttl false = some o.resp ∨
          get_cached c M db now key ttl true = some o.resp ∨
          get_cached c M db (now + d) key ttl true = some o.resp)) ∧
      (o.resp.cache = "miss" →
        o.resp.data = normalizeForReturn c r ∧
          o.resp.provider = providerName c) := by
    unfold getCachedOrFetch at h
    dsimp only at h
    split at h
    · rename_i cached heq
      rw [Except.ok.injEq] at h
      subst h
      refine ⟨?_, fun _ => Or.inl heq, ?_⟩
      · rcases get_cached_status _ _ _ _ _ _ _ _ heq with hc | hc
        · exact Or.inl hc
        · exact Or.inr (Or.inl hc)
      · intro hm
        have hm2 : cached.cache = "miss" := hm
        rcases get_cached_status _ _ _ _ _ _ _ _ heq with hc | hc <;>
          (rw [hm2] at hc; exact absurd hc (by decide))
    · split at h
      · exact Except.noConfusion h
      · rename_i ub hub
        split at h
        · rename_i stale heqif
          rw [Except.ok.injEq] at h
          subst h
          have heq : get_cached c M db now key ttl true = some stale := by
            split at heqif
            · exact heqif
            · exact Option.noConfusion heqif
          refine ⟨?_, fun _ => Or.inr (Or.inl heq), ?_⟩
          · rcases get_cached_status _ _ _ _ _ _ _ _ heq with hc | hc
            · exact Or.inl hc
            · exact Or.inr (Or.inl hc)
          · intro hm
            have hm2 : stale.cache = "miss" := hm
            rcases get_cached_status _ _ _ _ _ _ _ _ heq with hc | hc <;>
              (rw [hm2] at hc; exact absurd hc (by decide))
        · split at h
          · split at h
            · rename_i stale2 heq2
              rw [Except.ok.injEq] at h
              subst h
              refine ⟨?_, fun _ => Or.inr (Or.inr heq2), ?_⟩
              · rcases get_cached_status _ _ _ _ _ _ _ _ heq2 with hc | hc
                · exact Or.inl hc
                · exact Or.inr (Or.inl hc)
              · intro hm
                have hm2 : stale2.cache = "miss" := hm
                rcases get_cached_status _ _ _ _ _ _ _ _ heq2 with hc | hc <;>
                  (rw [hm2] at hc; exact absurd hc (by decide))
            · rw [Except.ok.injEq] at h
              subst h
              refine ⟨Or.inr (Or.inr rfl), ?_, fun _ => ⟨rfl, rfl⟩⟩
              intro hcon
              rcases hcon with hc | hc
              · exact absurd (show "miss" = "hit" from hc) (by decide)
              · exact absurd (show "miss" = "stale" from hc) (by decide)
          · rw [Except.ok.injEq] at h
            subst h
            refine ⟨Or.inr (Or.inr rfl), ?_, fun _ => ⟨rfl, rfl⟩⟩
            intro hcon
            rcases hcon with hc | hc
            · exact absurd (show "miss" = "hit" from hc) (by decide)
            · exact absurd (show "miss" = "stale" from hc) (by decide)
  exact ⟨habc.1, habc.2.1, habc.2.2, ⟨_, _, rfl, rfl, rfl, rfl, rfl, rfl, rfl⟩⟩

theorem get_cached_upsert_fresh (c : Client) (M : Category → ℚ) (db : Db)
    (key : String) (r : J) (nowU t2 ttl : ℚ) (hage : t2 - nowU < ttl) :
    ∃ p, get_cached c M (upsertDb c db key r nowU) t2 key ttl false = some p := by
  cases c <;> (
    unfold get_cached upsertDb
    dsimp only [category, providerName]
    rw [if_pos ⟨rfl, rfl⟩]
    dsimp only [recency]
    rw [if_pos hage]
    exact ⟨_, rfl⟩)

/-- C1 counterexample: the memoization claim fails in two ways.  First
run: a fetch closure that returns an error result — the failed first
fetch writes nothing back, so a second call 1 second later (TTL 1800)
misses again and fetches again, two invocations.  Second run: the first
fetch *succeeds* but its cache write-back raises and is swallowed
(`except` around `self._upsert`, write-back outcome false), so nothing is
stored and the second call again invokes `fetchFn`: even a successful
first fetch does not guarantee memoization. -/
theorem C1_counterexample :
    (twoCalls Client.aviationWeather MAX_STALE (fun _ => none) (okLedger none)
          emptyDb 0 1 "KDEN" 1800 (J.obj [("error", J.str "boom")]) 0 true
          (J.obj [("error", J.str "boom")]) 0 true).map
        (fun oo => oo.1.fetchCalls + oo.2.fetchCalls) = Except.ok 2 ∧
      (twoCalls Client.aviationWeather MAX_STALE (fun _ => none) (okLedger none)
          emptyDb 0 1 "KDEN" 1800 (J.obj [("metar", J.str "m")]) 0 false
          (J.obj [("metar", J.str "m")]) 0 false).map
        (fun oo => oo.1.fetchCalls + oo.2.fetchCalls) = Except.ok 2 ∧
      isErr (J.obj [("metar", J.str "m")]) = false ∧
      ((1 : ℚ) - 0 < 1800) ∧ ¬ (2 ≤ 1) :=
  ⟨rfl, rfl, rfl, by norm_num, by omega⟩

/-- C1 amended: freshness memoization for successfully cached fetches —
for every key, TTL and fetch behaviour, if `getCachedOrFetch` is called
twice sequentially (the second call starts at `t2`, after the first call
ended) with the second call starting within `ttl` seconds of the first,
and the first call's fetch — if it runs — returns a non-error result
*and* its cache write-back does not fail (`u1 = true`; a raised `_upsert`
is swallowed by the source and leaves no row, defeating the memoization),
then `fetchFn` is invoked at most once across the two calls. -/
theorem C1_memoization_amended (c : Client) (M : Category → ℚ)
    (B : String → Option ℤ) (st : LedgerStore) (db : Db) (t1 t2 : ℚ)
    (key : String) (ttl : ℚ) (r1 : J) (d1 : ℚ) (u1 : Bool) (r2 : J)
    (d2 : ℚ) (u2 : Bool) (o1 o2 : FetchOut) (hd1 : 0 ≤ d1)
    (hseq : t1 + d1 ≤ t2) (hwin : t2 - t1 < ttl) (hr1 : isErr r1 = false)
    (hu1 : u1 = true)
    (h : twoCalls c M B st db t1 t2 key ttl r1 d1 u1 r2 d2 u2 =
      Except.ok (o1, o2)) :
    o1.fetchCalls + o2.fetchCalls ≤ 1 := by
  unfold twoCalls at h
  split at h
  · exact Except.noConfusion h
  · rename_i oa h1
    split at h
    · exact Except.noConfusion h
    · rename_i ob h2
      rw [Except.ok.injEq, Prod.mk.injEq] at h
      obtain ⟨ho1, ho2⟩ := h
      subst ho1
      subst ho2
      rcases gcof_success c M B st db t1 key ttl r1 d1 u1 oa hr1 hu1 h1 with
        ⟨hz, _⟩ | ⟨hone, hdb⟩
      · have h2le := gcof_fetchCalls_le_one c M B st oa.db t2 key ttl r2 d2 u2 ob h2
        omega
      · have hage : t2 - (t1 + d1) < ttl := by linarith
        obtain ⟨p, hp⟩ :=
          get_cached_upsert_fresh c M db key r1 (t1 + d1) t2 ttl hage
        rw [hdb] at h2
        rw [gcof_of_hit c M B st (upsertDb c db key r1 (t1 + d1)) t2 key ttl
          r2 d2 u2 p hp] at h2
        rw [Except.ok.injEq] at h2
        have hob : ob.fetchCalls = 0 := by rw [← h2]
        omega

/-- Witness for C1 amended: a successful first fetch at `t1 = 0` followed
by a second call at `t2 = 1` (TTL 1800) makes at most one fetch in total. -/
theorem C1_memoization_amended_witness :
    ∃ o1 o2,
      twoCalls Client.aviationWeather MAX_STALE (fun _ => none) (okLedger none)
          emptyDb 0 1 "KDEN" 1800 (J.obj [("metar", J.str "m")]) 0 true
          (J.obj [("metar", J.str "m")]) 0 true = Except.ok (o1, o2) ∧
        o1.fetchCalls + o2.fetchCalls ≤ 1 := by
  have h1 : getCachedOrFetch Client.aviationWeather MAX_STALE (fun _ => none)
      (okLedger none) emptyDb 0 "KDEN" 1800 (J.obj [("metar", J.str "m")]) 0 true =
      Except.ok (FetchOut.mk
        (ProviderResponse.mk
          (normalizeForReturn Client.aviationWeather (J.obj [("metar", J.str "m")]))
          "aviationweather" "miss")
        (upsertDb Client.aviationWeather emptyDb "KDEN"
          (J.obj [("metar", J.str "m")]) (0 + 0)) 1 (0 + 0)) := rfl
  obtain ⟨p, hp⟩ := get_cached_upsert_fresh Client.aviationWeather MAX_STALE
    emptyDb "KDEN" (J.obj [("metar", J.str "m")]) (0 + 0) 1 1800 (by norm_num)
  have h2 := gcof_of_hit Client.aviationWeather MAX_STALE (fun _ => none)
    (okLedger none)
    (upsertDb Client.aviationWeather emptyDb "KDEN" (J.obj [("metar", J.str "m")]) (0 + 0))
    1 "KDEN" 1800 (J.obj [("metar", J.str "m")]) 0 true p hp
  have htc : twoCalls Client.aviationWeather MAX_STALE (fun _ => none)
      (okLedger none) emptyDb 0 1 "KDEN" 1800 (J.obj [("metar", J.str "m")]) 0 true
      (J.obj [("metar", J.str "m")]) 0 true =
      Except.ok (FetchOut.mk
        (ProviderResponse.mk
          (normalizeForReturn Client.aviationWeather (J.obj [("metar", J.str "m")]))
          "aviationweather" "miss")
        (upsertDb Client.aviationWeather emptyDb "KDEN"
          (J.obj [("metar", J.str "m")]) (0 + 0)) 1 (0 + 0),
        FetchOut.mk p
          (upsertDb Client.aviationWeather emptyDb "KDEN"
            (J.obj [("metar", J.str "m")]) (0 + 0)) 0 1) := by
    unfold twoCalls
    rw [h1]
    dsimp only
    rw [h2]
  exact ⟨_, _, htc,
    C1_memoization_amended Client.aviationWeather MAX_STALE (fun _ => none)
      (okLedger none) emptyDb 0 1 "KDEN" 1800 (J.obj [("metar", J.str "m")]) 0 true
      (J.obj [("metar", J.str "m")]) 0 true _ _ (by norm_num) (by norm_num)
      (by norm_num) rfl rfl htc⟩

/-- Witness for C2: aviationweather row for KDEN aged 2000 s (TTL 1800,
max stale 21600) with the daily budget of 2000 exhausted. -/
theorem C2_stale_on_budget_exhaustion_witness :
    ∃ p, get_cached Client.aviationWeather MAX_STALE dbKDEN 2000 "KDEN" 1800 true =
        some p ∧ p.cache = "stale" ∧
      ∀ r d u, getCachedOrFetch Client.aviationWeather MAX_STALE DAILY_BUDGETS
          (okLedger (some 2000)) dbKDEN 2000 "KDEN" 1800 r d u =
        Except.ok (FetchOut.mk p dbKDEN 0 2000) :=
  C2_stale_on_budget_exhaustion Client.aviationWeather MAX_STALE DAILY_BUDGETS
    (okLedger (some 2000)) dbKDEN 2000 "KDEN" 1800 2000
    (by norm_num [cacheRowAge, category, providerName, dbKDEN, recency])
    (by norm_num) (by norm_num [MAX_STALE, category]) rfl

/-- Witness for C3: geocoding fetch fails against an empty cache — the
orchestrator returns the `miss` response whose payload embeds the error. -/
theorem C3_stale_on_live_failure_witness :
    (∀ s, get_cached Client.openStreetMap MAX_STALE emptyDb (5 + 0) "q" 86400 true =
        some s →
      getCachedOrFetch Client.openStreetMap MAX_STALE (fun _ => none)
          (okLedger none) emptyDb 5 "q" 86400 (J.obj [("error", J.str "boom")]) 0
          true =
        Except.ok (FetchOut.mk s emptyDb 1 (5 + 0)) ∧ s.cache = "stale") ∧
      (get_cached Client.openStreetMap MAX_STALE emptyDb (5 + 0) "q" 86400 true =
          none →
        getCachedOrFetch Client.openStreetMap MAX_STALE (fun _ => none)
            (okLedger none) emptyDb 5 "q" 86400 (J.obj [("error", J.str "boom")]) 0
            true =
          Except.ok (FetchOut.mk
            (ProviderResponse.mk
              (normalizeForReturn Client.openStreetMap (J.obj [("error", J.str "boom")]))
              (providerName Client.openStreetMap) "miss")
            emptyDb 1 (5 + 0)) ∧
        embedsRaw (normalizeForReturn Client.openStreetMap (J.obj [("error", J.str "boom")]))
          (J.obj [("error", J.str "boom")])) :=
  C3_stale_on_live_failure Client.openStreetMap MAX_STALE (fun _ => none)
    (okLedger none) emptyDb 5 "q" 86400 (J.obj [("error", J.str "boom")]) 0 true
    true (by norm_num) rfl rfl rfl (fun hcon => Bool.noConfusion hcon)

/-- Witness for C10, at the error run itself: the orchestrator returned a
`miss` whose payload is the normalized error. -/
theorem C10_cache_status_partition_witness :
    ((FetchOut.mk (ProviderResponse.mk
          (J.obj [("result", J.obj [("error", J.str "boom")])])
          "openstreetmap" "miss") emptyDb 1 ((0 : ℚ) + 0)).resp.cache = "hit" ∨
      (FetchOut.mk (ProviderResponse.mk
          (J.obj [("result", J.obj [("error", J.str "boom")])])
          "openstreetmap" "miss") emptyDb 1 ((0 : ℚ) + 0)).resp.cache = "stale" ∨
      (FetchOut.mk (ProviderResponse.mk
          (J.obj [("result", J.obj [("error", J.str "boom")])])
          "openstreetmap" "miss") emptyDb 1 ((0 : ℚ) + 0)).resp.cache = "miss") ∧
    (((FetchOut.mk (ProviderResponse.mk
          (J.obj [("result", J.obj [("error", J.str "boom")])])
          "openstreetmap" "miss") emptyDb 1 ((0 : ℚ) + 0)).resp.cache = "hit" ∨
      (FetchOut.mk (ProviderResponse.mk
          (J.obj [("result", J.obj [("error", J.str "boom")])])
          "openstreetmap" "miss") emptyDb 1 ((0 : ℚ) + 0)).resp.cache = "stale") →
      (get_cached Client.openStreetMap MAX_STALE emptyDb 0 "q" 86400 false =
          some (FetchOut.mk (ProviderResponse.mk
            (J.obj [("result", J.obj [("error", J.str "boom")])])
            "openstreetmap" "miss") emptyDb 1 ((0 : ℚ) + 0)).resp ∨
        get_cached Client.openStreetMap MAX_STALE emptyDb 0 "q" 86400 true =
          some (FetchOut.mk (ProviderResponse.mk
            (J.obj [("result", J.obj [("error", J.str "boom")])])
            "openstreetmap" "miss") emptyDb 1 ((0 : ℚ) + 0)).resp ∨
        get_cached Client.openStreetMap MAX_STALE emptyDb (0 + 0) "q" 86400 true =
          some (FetchOut.mk (ProviderResponse.mk
            (J.obj [("result", J.obj [("error", J.str "boom")])])
            "openstreetmap" "miss") emptyDb 1 ((0 : ℚ) + 0)).resp)) ∧
    ((FetchOut.mk (ProviderResponse.mk
          (J.obj [("result", J.obj [("error", J.str "boom")])])
          "openstreetmap" "miss") emptyDb 1 ((0 : ℚ) + 0)).resp.cache = "miss" →
      (FetchOut.mk (ProviderResponse.mk
          (J.obj [("result", J.obj [("error", J.str "boom")])])
          "openstreetmap" "miss") emptyDb 1 ((0 : ℚ) + 0)).resp.data =
          normalizeForReturn Client.openStreetMap (J.obj [("error", J.str "boom")]) ∧
        (FetchOut.mk (ProviderResponse.mk
            (J.obj [("result", J.obj [("error", J.str "boom")])])
            "openstreetmap" "miss") emptyDb 1 ((0 : ℚ) + 0)).resp.provider =
          providerName Client.openStreetMap) ∧
    (∃ oS oE,
      getCachedOrFetch Client.openStreetMap MAX_STALE (fun _ => none)
          (okLedger none) emptyDb 0 "q" 86400
          (J.obj [("display", J.str "x")]) 0 true = Except.ok oS ∧
      getCachedOrFetch Client.openStreetMap MAX_STALE (fun _ => none)
          (okLedger none) emptyDb 0 "q" 86400
          (J.obj [("error", J.str "boom")]) 0 true = Except.ok oE ∧
      oS.resp.cache = "miss" ∧ oE.resp.cache = "miss" ∧
      isErr (J.obj [("display", J.str "x")]) = false ∧
      isErr (J.obj [("error", J.str "boom")]) = true ∧
      jTruthy (pyGet (pyGet oE.resp.data "result") "error") = true) :=
  C10_cache_status_partition Client.openStreetMap MAX_STALE (fun _ => none)
    (okLedger none) emptyDb 0 "q" 86400 (J.obj [("error", J.str "boom")]) 0 true
    (FetchOut.mk (ProviderResponse.mk
      (J.obj [("result", J.obj [("error", J.str "boom")])])
      "openstreetmap" "miss") emptyDb 1 ((0 : ℚ) + 0)) rfl
